import Mathlib

/-!
# Verification of `bevy_mod_wanderlust` — `src/controller/movement.rs`

A shallow embedding of the per-tick force-computation core of the
character controller, translated from the Rust source
(`src/controller/movement.rs` and `src/components/settings.rs`).

Modelling conventions:
* `f32` scalars are modelled as `ℚ` (exact arithmetic; all claims concern
  control flow and exact algebraic identities, not rounding).
* `glam::Vec3` is a record of three rationals; `Vec3 * Vec3` is the
  componentwise product, as in glam.
* Square roots are not exactly representable over `ℚ`, so every definition
  that the source computes via `length()` / `normalize()` /
  `clamp_length_max()` is parametrised by an abstract square-root function
  `rsqrt : ℚ → ℚ`; the properties a real square root satisfies that proofs
  need are collected in `SqrtSpec` (satisfiable over `ℚ`, e.g. by
  `fun q => max q 0`).
* Bevy ECS plumbing (queries, gizmos, `info!` logging) carries no state and
  is dropped; each system body becomes a pure function from a per-tick
  input snapshot and the previous accumulator values to the new values.
-/

/-- A 3-component vector over `ℚ`, modelling `glam::Vec3`. -/
structure Vec3 where
  x : ℚ
  y : ℚ
  z : ℚ
deriving DecidableEq, Repr

namespace Vec3

def mk3 (x y z : ℚ) : Vec3 := ⟨x, y, z⟩

instance : Zero Vec3 := ⟨⟨0, 0, 0⟩⟩

/-- `Vec3::ONE`. -/
def ONE : Vec3 := ⟨1, 1, 1⟩

/-- `Vec3::ZERO`. -/
def ZERO : Vec3 := (0 : Vec3)

instance : Add Vec3 := ⟨fun a b => ⟨a.x + b.x, a.y + b.y, a.z + b.z⟩⟩
instance : Sub Vec3 := ⟨fun a b => ⟨a.x - b.x, a.y - b.y, a.z - b.z⟩⟩
instance : Neg Vec3 := ⟨fun a => ⟨-a.x, -a.y, -a.z⟩⟩

/-- glam's `Vec3 * Vec3` is the componentwise product. -/
instance : Mul Vec3 := ⟨fun a b => ⟨a.x * b.x, a.y * b.y, a.z * b.z⟩⟩

instance : HMul Vec3 ℚ Vec3 := ⟨fun v s => ⟨v.x * s, v.y * s, v.z * s⟩⟩
instance : HMul ℚ Vec3 Vec3 := ⟨fun s v => ⟨s * v.x, s * v.y, s * v.z⟩⟩
instance : HDiv Vec3 ℚ Vec3 := ⟨fun v s => ⟨v.x / s, v.y / s, v.z / s⟩⟩

/-- `Vec3::dot`. -/
def dot (a b : Vec3) : ℚ := a.x * b.x + a.y * b.y + a.z * b.z

/-- `Vec3::length_squared`. -/
def length_squared (v : Vec3) : ℚ := v.x * v.x + v.y * v.y + v.z * v.z

/-- `Vec3::length`, via the abstract square root. -/
def length (rsqrt : ℚ → ℚ) (v : Vec3) : ℚ := rsqrt v.length_squared

/-- `Vec3::normalize` (`self * self.length().recip()`). -/
def normalize (rsqrt : ℚ → ℚ) (v : Vec3) : Vec3 :=
  v * (length rsqrt v)⁻¹

/-- `Vec3::abs`. -/
def abs (v : Vec3) : Vec3 := ⟨|v.x|, |v.y|, |v.z|⟩

/-- Componentwise `Vec3::max`. -/
def max (a b : Vec3) : Vec3 := ⟨Max.max a.x b.x, Max.max a.y b.y, Max.max a.z b.z⟩

/-- `Vec3::project_onto` (`rhs * self.dot(rhs) / rhs.length_squared()`). -/
def project_onto (v u : Vec3) : Vec3 :=
  u * (v.dot u / u.length_squared)

/-- `Vec3::clamp_length_max(max)`: if the length exceeds `max`, rescale to
length `max`; glam implements the comparison on `length_squared` against
`max * max` and divides by the square root. -/
def clamp_length_max (rsqrt : ℚ → ℚ) (v : Vec3) (m : ℚ) : Vec3 :=
  if v.length_squared > m * m then
    (v / rsqrt v.length_squared) * m
  else
    v

/-- Modelled from the external `glam` crate (a dependency of the source,
not part of this repository): `Vec3::any_orthonormal_pair`, the Pixar
orthonormal-basis construction. `copysign(1.0, z)` is `-1` for negative
`z` and `1` otherwise (`ℚ` has no negative zero). -/
def any_orthonormal_pair (v : Vec3) : Vec3 × Vec3 :=
  let sign : ℚ := if v.z < 0 then -1 else 1
  let a : ℚ := -1 / (sign + v.z)
  let b : ℚ := v.x * v.y * a
  (⟨1 + sign * v.x * v.x * a, sign * b, -sign * v.x⟩,
   ⟨b, sign + v.y * v.y * a, -v.y⟩)

end Vec3

/-- Properties of the abstract square root that the source's guards rely
on; every property is satisfied by the real square root (restricted to
`ℚ` inputs they are satisfiable over `ℚ`, e.g. by `fun q => Max.max q 0`). -/
structure SqrtSpec (rsqrt : ℚ → ℚ) : Prop where
  pos : ∀ q : ℚ, 0 < q → 0 < rsqrt q
  zero : rsqrt 0 = 0

/-- `bevy_rapier3d::Friction` (only the `coefficient` field is used). -/
structure Friction where
  coefficient : ℚ
deriving DecidableEq, Repr

/-- Modelled from the external `bevy_rapier3d` crate: `Friction::default()`
has friction coefficient `0.5`. -/
def Friction.default : Friction := ⟨1 / 2⟩

/-- `Velocity` of a contact (only `linvel` is used by this module). -/
structure Velocity where
  linvel : Vec3
deriving DecidableEq, Repr

def Velocity.default : Velocity := ⟨0⟩

/-- The cast data of a ground contact (`ground.cast.point`,
`ground.cast.normal` are the fields this module reads). -/
structure CastResult where
  point : Vec3
  normal : Vec3
deriving DecidableEq, Repr

/-- A ground contact as read by this module: the contact entity, its cast
data, the stability classification and the contacted body's velocity at
the contact point. -/
structure GroundContact where
  entity : ℕ
  cast : CastResult
  stable : Bool
  point_velocity : Velocity
deriving DecidableEq, Repr

/-- Modelled from the spec (the `ViableGround` type lives in a ground-
sensing file that is not under `src/`): the viable-ground history either
holds a current stable contact (`Ground`), retains the last known contact
for a one-tick grace period (`Grace`), or holds nothing. -/
inductive ViableGround where
  | Ground (g : GroundContact)
  | Grace (g : GroundContact)
  | NoGround
deriving DecidableEq, Repr

/-- Modelled from the spec: `viable.last()` returns the most recent
retained contact, if any. -/
def ViableGround.last : ViableGround → Option GroundContact
  | .Ground g => some g
  | .Grace g => some g
  | .NoGround => none

/-- The per-tick ground cast result read by the force systems. -/
structure GroundCast where
  current : Option GroundContact
  viable : ViableGround
deriving DecidableEq, Repr

/-- Modelled from the spec (the `grounded()` accessor lives in a file that
is not under `src/`): the controller is grounded when the current cast hit
a stable contact. -/
def GroundCast.grounded (c : GroundCast) : Bool :=
  match c.current with
  | some g => g.stable
  | none => false

/-- The `Gravity` component as read by this module (`gravity.up_vector`). -/
structure Gravity where
  up_vector : Vec3
deriving DecidableEq, Repr

/-- `ControllerInput`: movement intent and the jump-held flag. -/
structure ControllerInput where
  movement : Vec3
  jumping : Bool
deriving DecidableEq, Repr

/-- Modelled from the spec (`crate::spring::Strength` is not under
`src/`): acceleration strength is either a flat value or a mass/dt-scaled
value. -/
inductive Strength where
  | Flat (v : ℚ)
  | Scaled (v : ℚ)
deriving DecidableEq, Repr

/-- Modelled from the spec: resolve a `Strength` against mass and dt. -/
def Strength.get : Strength → ℚ → ℚ → ℚ
  | .Flat v, _, _ => v
  | .Scaled v, mass, dt => v * mass / dt

/-- The `Jump` component: configuration plus mutable runtime state, from
`src/controller/movement.rs`. The `decay_function` field is an optional
function value, as in the source. -/
structure Jump where
  initial_force : ℚ
  force : ℚ
  cooldown_duration : ℚ
  cooldown_timer : ℚ
  jump_duration : ℚ
  jump_timer : ℚ
  decay_function : Option (ℚ → ℚ)
  jumps : ℕ
  remaining_jumps : ℕ
  pressed_last_frame : Bool
  stop_force : ℚ
  buffer_timer : ℚ
  buffer_duration : ℚ
  first_jump_grounded : Bool
  coyote_duration : ℚ
  coyote_timer : ℚ
  skip_ground_check_duration : ℚ

namespace Jump

/-- The closure `tick` inside `Jump::tick_timers`: decrement a timer by
`dt`, clamped at zero, leaving a non-positive timer unchanged. -/
def tickOne (dt timer : ℚ) : ℚ :=
  if timer > 0 then Max.max (timer - dt) 0 else timer

/-- `Jump::tick_timers`. NOTE: translated verbatim from the source, whose
fourth call is `tick(&mut self.coyote_duration)` — it decrements the
configured `coyote_duration` field, not the `coyote_timer` field. -/
def tick_timers (j : Jump) (dt : ℚ) : Jump :=
  { j with
    cooldown_timer := tickOne dt j.cooldown_timer
    jump_timer := tickOne dt j.jump_timer
    buffer_timer := tickOne dt j.buffer_timer
    coyote_duration := tickOne dt j.coyote_duration }

/-- `Jump::jumping`. -/
def jumping (j : Jump) : Bool := j.jump_timer > 0

/-- `Jump::can_jump`. -/
def can_jump (j : Jump) (grounded : Bool) : Bool :=
  let first_jump : Bool := j.remaining_jumps == j.jumps
  let grounded : Bool := grounded || decide (j.coyote_timer > 0)
  if first_jump && !grounded then false
  else decide (j.cooldown_timer ≤ 0) && decide (j.remaining_jumps > 0)

/-- `Jump::reset_jump`. -/
def reset_jump (j : Jump) : Jump :=
  { j with remaining_jumps := j.jumps, jump_timer := 0 }

/-- `Jump::jump_progress`. -/
def jump_progress (j : Jump) : ℚ :=
  (j.jump_duration - j.jump_timer) / j.jump_duration

/-- `Jump::decay_multiplier`. -/
def decay_multiplier (j : Jump) : ℚ :=
  match j.decay_function with
  | some f => f j.jump_progress
  | none => 1

end Jump

/-- The per-tick, per-entity inputs of the `jump_force` system that are
read-only snapshots: input, ground cast, body velocity, mass, gravity and
the fixed timestep. -/
structure JumpTickIn where
  input : ControllerInput
  cast : GroundCast
  velocity : Vec3
  mass : ℚ
  up_vector : Vec3
  dt : ℚ

/-- Everything the `jump_force` system writes for one entity in one tick:
the updated `Jump` state, the `JumpForce`, the (possibly zeroed)
`FloatForce` and `GravityForce` linear values, the ground caster's
skip-ground-check timer, and an instrumentation flag recording whether the
initial-jump branch fired this tick. -/
structure JumpTickOut where
  jump : Jump
  jumpForce : Vec3
  floatForce : Vec3
  gravityForce : Vec3
  skipGroundCheckTimer : ℚ
  fired : Bool

/-- The jump state after the grounded-refresh steps of `jump_force`
(timers ticked, coyote refreshed, jump reset when grounded off cooldown),
i.e. the state against which `can_jump` is evaluated this tick. -/
def jumpPreState (j : Jump) (inp : JumpTickIn) : Jump :=
  let grounded := inp.cast.grounded
  let j1 := j.tick_timers inp.dt
  let j2 := if grounded then { j1 with coyote_timer := j1.coyote_duration } else j1
  if j2.cooldown_timer ≤ 0 ∧ grounded then j2.reset_jump else j2

/-- The relative velocity used by `jump_force`: body velocity minus the
last viable ground contact's point velocity, when one exists. -/
def jumpRelVelocity (inp : JumpTickIn) : Vec3 :=
  match inp.cast.viable.last with
  | some g => inp.velocity - g.point_velocity.linvel
  | none => inp.velocity

/-- `jump_inputted`: the jump input edge, evaluated against the state's
`pressed_last_frame` flag. -/
def jumpInputted (j : Jump) (inp : JumpTickIn) : Bool :=
  inp.input.jumping && !j.pressed_last_frame

/-- The jump state after the buffer-arming step of `jump_force`: when the
input edge fires while not grounded, `buffer_timer` is set to
`buffer_duration`. -/
def jumpArmState (j : Jump) (inp : JumpTickIn) : Jump :=
  let j3 := jumpPreState j inp
  if jumpInputted j3 inp ∧ inp.cast.grounded = false then
    { j3 with buffer_timer := j3.buffer_duration }
  else j3

/-- Whether the initial-jump branch of `jump_force` fires this tick:
`can_jump` (evaluated, as in the source, on the state after the
buffer-arming step) together with `just_jumped` (input edge, or a buffer
timer that was positive after this tick's timer tick and before arming). -/
def firesJump (j : Jump) (inp : JumpTickIn) : Bool :=
  let grounded := inp.cast.grounded
  let j3 := jumpPreState j inp
  let jump_inputted := jumpInputted j3 inp
  let just_jumped := jump_inputted || decide (j3.buffer_timer > 0)
  (jumpArmState j inp).can_jump grounded && just_jumped

/-- The body of the `jump_force` system for one entity and one tick,
translated line by line from `src/controller/movement.rs` (lines
385–458). `prevJumpForce`, `floatForce`, `gravityForce` and `skipTimer`
are the accumulator values as this system finds them. -/
def jump_force (j : Jump) (prevJumpForce : Vec3) (floatForce gravityForce : Vec3)
    (skipTimer : ℚ) (inp : JumpTickIn) : JumpTickOut :=
  -- force.linear = Vec3::ZERO;
  let force0 : Vec3 := Vec3.ZERO
  let grounded := inp.cast.grounded
  let j3 := jumpPreState j inp
  let velocity := jumpRelVelocity inp
  let jump_inputted := jumpInputted j3 inp
  let just_jumped := jump_inputted || decide (j3.buffer_timer > 0)
  let j4 := jumpArmState j inp
  if j4.can_jump grounded && just_jumped then
    let initial_jump_force := j4.initial_force * inp.up_vector
    let negate_up_velocity :=
      ((-1 : ℚ) * inp.up_vector * (velocity.dot inp.up_vector)) * inp.mass / inp.dt
    let j5 := { j4 with
      remaining_jumps := j4.remaining_jumps - 1
      cooldown_timer := j4.cooldown_duration
      jump_timer := j4.jump_duration }
    { jump := { j5 with pressed_last_frame := inp.input.jumping }
      jumpForce := force0 + (negate_up_velocity + initial_jump_force)
      floatForce := Vec3.ZERO
      gravityForce := Vec3.ZERO
      skipGroundCheckTimer := skipTimer
      fired := true }
  else if j4.jumping then
    if inp.input.jumping = false then
      let stop_force := (velocity.project_onto inp.up_vector) * (-j4.stop_force)
      { jump := { j4 with pressed_last_frame := inp.input.jumping }
        jumpForce := force0 + stop_force
        floatForce := floatForce
        gravityForce := gravityForce
        skipGroundCheckTimer := skipTimer
        fired := false }
    else
      let jump := inp.up_vector * j4.force * j4.decay_multiplier
      { jump := { j4 with pressed_last_frame := inp.input.jumping }
        jumpForce := force0 + jump
        floatForce := floatForce
        gravityForce := gravityForce
        skipGroundCheckTimer := j4.skip_ground_check_duration
        fired := false }
  else
    { jump := { j4 with pressed_last_frame := inp.input.jumping }
      jumpForce := force0
      floatForce := floatForce
      gravityForce := gravityForce
      skipGroundCheckTimer := skipTimer
      fired := false }

/-- The jump-state evolution of one tick of `jump_force` (the force
accumulators do not feed back into the `Jump` state). -/
def jstep (j : Jump) (inp : JumpTickIn) : Jump :=
  (jump_force j 0 0 0 0 inp).jump

/-- Run `jump_force` over a sequence of ticks, keeping the jump state. -/
def runJump (j : Jump) : List JumpTickIn → Jump
  | [] => j
  | inp :: rest => runJump (jstep j inp) rest

/-- The per-tick fired flags of a sequence of ticks of `jump_force`. -/
def firedSeq (j : Jump) : List JumpTickIn → List Bool
  | [] => []
  | inp :: rest => (jump_force j 0 0 0 0 inp).fired :: firedSeq (jstep j inp) rest

/-- `ForceScale` from `src/controller/movement.rs`. The source's variant
names `None` and `Vec3` clash with `Option.none` and the `Vec3` type here,
so they are rendered `NoScale` and `Vec`. -/
inductive ForceScale where
  | Up
  | NoScale
  | Vec (v : Vec3)
deriving DecidableEq, Repr

/-- The `Movement` component. -/
structure Movement where
  acceleration : Strength
  max_speed : ℚ
  force_scale : ForceScale
  slip_force_scale : Vec3
deriving DecidableEq, Repr

/-- `Movement::force_scale`: resolve the force-scale mode against
gravity's up vector (lines 50–64 of `src/controller/movement.rs`). -/
def Movement.force_scale_fn (rsqrt : ℚ → ℚ) (m : Movement) (gravity : Gravity) : Vec3 :=
  match m.force_scale with
  | .Vec v => v
  | .Up =>
    if gravity.up_vector.length rsqrt > 0 then
      let up := gravity.up_vector.normalize rsqrt
      let p := up.any_orthonormal_pair
      p.1.abs + p.2.abs
    else
      Vec3.ONE
  | .NoScale => Vec3.ONE

/-- The `MovementForce` accumulator component. -/
structure MovementForce where
  linear : Vec3
  angular : Vec3
deriving DecidableEq, Repr

/-- `Cap for Vec3` (lines 81–105 of `src/controller/movement.rs`),
translated branch by branch. -/
def Vec3.cap (v c : Vec3) : Vec3 :=
  let out := v
  let out := if c.x = 0 ∨ (c.x < 0 ∧ v.x < c.x) ∨ (c.x > 0 ∧ v.x > c.x) then
      { out with x := c.x } else out
  let out := if c.y = 0 ∨ (c.y < 0 ∧ v.y < c.y) ∨ (c.y > 0 ∧ v.y > c.y) then
      { out with y := c.y } else out
  let out := if c.z = 0 ∨ (c.z < 0 ∧ v.z < c.z) ∨ (c.z > 0 ∧ v.z > c.z) then
      { out with z := c.z } else out
  out

/-- The per-tick, per-entity read-only inputs of the `movement_force`
system: the entity id (for the friction lookup), the movement settings,
gravity, input, ground cast, body velocity, mass, the fixed timestep, and
the friction-component lookup (`frictions : Query<&Friction>`). -/
structure MoveIn where
  entity : ℕ
  movement : Movement
  gravity : Gravity
  input : ControllerInput
  cast : GroundCast
  velocity : Vec3
  mass : ℚ
  dt : ℚ
  frictions : ℕ → Option Friction

/-- All the intermediate values of one tick of the `movement_force`
system body, so that theorems can speak about each step of the
computation. -/
structure MovementCalc where
  force_scale : Vec3
  input_goal_vel : Vec3
  goal_vel : Vec3
  slip_force : Option Vec3
  relative_velocity : Vec3
  friction_force : Vec3
  strength : ℚ
  raw_movement_force : Vec3
  clamped_velocity : Vec3
  displacement : Vec3
  max_movement_force : Vec3
  movement_force : Vec3

/-- The body of the `movement_force` system for one entity and one tick,
translated line by line from `src/controller/movement.rs` (lines
125–224). Gizmo drawing and `info!` logging are dropped (they write no
state). Returns the updated `MovementForce` accumulator together with
every intermediate value. -/
def movement_force (rsqrt : ℚ → ℚ) (inp : MoveIn) (prev : MovementForce) :
    MovementForce × MovementCalc :=
  -- force.linear = Vec3::ZERO;
  let force_linear : Vec3 := Vec3.ZERO
  let force_scale := inp.movement.force_scale_fn rsqrt inp.gravity
  let input_dir := inp.input.movement.clamp_length_max rsqrt 1
  let input_goal_vel := input_dir * inp.movement.max_speed
  let goal_vel0 := input_goal_vel
  -- the slip branch: on an unstable current contact, damp the uphill
  -- component of the goal velocity and push down the slope
  let slipRes : Vec3 × Option Vec3 :=
    match inp.cast.current with
    | some ground =>
      if ground.stable = false then
        let p := ground.cast.normal.any_orthonormal_pair
        let projected_x := inp.gravity.up_vector.project_onto p.1
        let projected_z := inp.gravity.up_vector.project_onto p.2
        let slip_vector := (projected_x + projected_z) * force_scale
        -- arbitrary value to ignore flat surfaces.
        if slip_vector.length rsqrt > 1 / 100 then
          let slip_goal := (goal_vel0.project_onto (slip_vector.normalize rsqrt)).max Vec3.ZERO
          let goal_vel := goal_vel0 - slip_goal * inp.movement.slip_force_scale
          let slide := ((slip_vector * force_scale).normalize rsqrt)
          (goal_vel, some slide)
        else
          (goal_vel0, none)
      else (goal_vel0, none)
    | none => (goal_vel0, none)
  let goal_vel := slipRes.1
  let slip_force := slipRes.2
  let last_ground_vel :=
    match inp.cast.viable.last with
    | some ground => ground.point_velocity
    | none => Velocity.default
  let relative_velocity := (inp.velocity - last_ground_vel.linvel) * force_scale
  let friction_force :=
    match inp.cast.viable with
    | .Ground ground =>
      let friction := (inp.frictions inp.entity).getD Friction.default
      let ground_friction := (inp.frictions ground.entity).getD Friction.default
      let friction_coefficient := Max.max friction.coefficient ground_friction.coefficient
      friction_coefficient * relative_velocity * inp.mass / inp.dt
    | _ => Vec3.ZERO
  let strength := inp.movement.acceleration.get inp.mass inp.dt
  let raw_movement_force := input_goal_vel * strength * force_scale
  -- get displacement of relative velocity to goal velocity
  let clamped_velocity := relative_velocity.cap goal_vel
  let displacement := goal_vel - clamped_velocity
  let max_movement_force := displacement * inp.mass / inp.dt * force_scale + friction_force
  let mf := raw_movement_force.cap max_movement_force
  let out_linear := force_linear + (mf - friction_force - (slip_force.getD Vec3.ZERO))
  ({ linear := out_linear, angular := prev.angular },
   { force_scale := force_scale
     input_goal_vel := input_goal_vel
     goal_vel := goal_vel
     slip_force := slip_force
     relative_velocity := relative_velocity
     friction_force := friction_force
     strength := strength
     raw_movement_force := raw_movement_force
     clamped_velocity := clamped_velocity
     displacement := displacement
     max_movement_force := max_movement_force
     movement_force := mf })

/-! ### Concrete fixtures

Concrete values used to evaluate the embedded systems on specific
inputs. -/

/-- A concrete square root stand-in satisfying `SqrtSpec`. -/
def wrsqrt : ℚ → ℚ := fun q => Max.max q 0

/-- A stable ground contact at rest, belonging to entity `1`. -/
def restContact : GroundContact :=
  { entity := 1
    cast := { point := 0, normal := Vec3.mk3 0 1 0 }
    stable := true
    point_velocity := { linvel := 0 } }

/-- A ground cast that hit `restContact`. -/
def groundedCast : GroundCast :=
  { current := some restContact, viable := .Ground restContact }

/-- A ground cast with no contact at all. -/
def airCast : GroundCast :=
  { current := none, viable := .NoGround }

/-- A jump-system tick input: grounded flag, jump-held flag, with unit
mass, unit timestep, `+Y` up and a resting body. -/
def tickIn (g jmp : Bool) : JumpTickIn :=
  { input := { movement := 0, jumping := jmp }
    cast := if g then groundedCast else airCast
    velocity := 0
    mass := 1
    up_vector := Vec3.mk3 0 1 0
    dt := 1 }

/-- A double-jump configuration, grounded-ready: two jumps available, all
timers and durations zero. -/
def jump2 : Jump :=
  { initial_force := 5, force := 1, cooldown_duration := 0, cooldown_timer := 0
    jump_duration := 0, jump_timer := 0, decay_function := none
    jumps := 2, remaining_jumps := 2, pressed_last_frame := false
    stop_force := 0, buffer_timer := 0, buffer_duration := 0
    first_jump_grounded := true, coyote_duration := 0, coyote_timer := 0
    skip_ground_check_duration := 0 }

/-- A single-jump configuration that is airborne with its jump spent
window closed: `remaining_jumps = jumps = 1` but no coyote window, so
`can_jump false` is false until landing; a 3-second jump buffer. -/
def jumpBuf : Jump :=
  { initial_force := 5, force := 1, cooldown_duration := 0, cooldown_timer := 0
    jump_duration := 0, jump_timer := 0, decay_function := none
    jumps := 1, remaining_jumps := 1, pressed_last_frame := false
    stop_force := 0, buffer_timer := 0, buffer_duration := 3
    first_jump_grounded := true, coyote_duration := 0, coyote_timer := 0
    skip_ground_check_duration := 0 }

/-- The jump state exhibiting the coyote-timer aliasing: both the coyote
timer and the configured coyote duration are `1`, as are the three other
timers. -/
def c1jump : Jump :=
  { initial_force := 0, force := 0, cooldown_duration := 0, cooldown_timer := 1
    jump_duration := 0, jump_timer := 1, decay_function := none
    jumps := 1, remaining_jumps := 1, pressed_last_frame := false
    stop_force := 0, buffer_timer := 1, buffer_duration := 0
    first_jump_grounded := true, coyote_duration := 1, coyote_timer := 1
    skip_ground_check_duration := 0 }

/-- A movement-system input on stable resting ground: full `+X` input,
friction coefficient `1/3` on the controller (entity `0`), none on the
ground entity. -/
def moveInGround : MoveIn :=
  { entity := 0
    movement := { acceleration := .Flat 4, max_speed := 10
                  force_scale := .NoScale, slip_force_scale := Vec3.ONE }
    gravity := { up_vector := Vec3.mk3 0 1 0 }
    input := { movement := Vec3.mk3 1 0 0, jumping := false }
    cast := groundedCast
    velocity := Vec3.mk3 2 0 0
    mass := 1
    dt := 1
    frictions := fun n => if n = 0 then some ⟨1 / 3⟩ else none }

/-- The same movement-system input while airborne (no contact). -/
def moveInAir : MoveIn :=
  { moveInGround with cast := airCast }

/-! ## Theorems -/

/-- The concrete square-root stand-in satisfies the square-root
properties the guards rely on. -/
theorem sqrtSpec_wrsqrt : SqrtSpec wrsqrt := by
  constructor
  · intro q hq
    simp [wrsqrt, lt_max_iff, hq]
  · simp [wrsqrt]

/-- Two `Vec3`s with equal components are equal. -/
theorem Vec3.eq_of_components {a b : Vec3} (hx : a.x = b.x) (hy : a.y = b.y)
    (hz : a.z = b.z) : a = b := by
  cases a; cases b; simp_all

/-- The x-component of `Vec3::cap`: a zero cap forces zero, a negative
cap bounds from below, a positive cap bounds from above. -/
theorem cap_x_eq (v c : Vec3) :
    (v.cap c).x = if c.x = 0 then 0 else if c.x < 0 then Max.max v.x c.x else Min.min v.x c.x := by
  obtain ⟨vx, vy, vz⟩ := v
  obtain ⟨cx, cy, cz⟩ := c
  simp only [Vec3.cap]
  split_ifs <;> simp_all [max_def, min_def] <;> try split_ifs <;>
    first
      | rfl
      | linarith
      | (exfalso; rcases ‹vx < cx ∨ 0 < cx ∧ cx < vx› with h | ⟨h1, h2⟩ <;> linarith)
      | (exfalso
         have := ‹0 < cx → vx ≤ cx› (lt_of_le_of_ne ‹0 ≤ cx› (Ne.symm ‹¬cx = 0›))
         linarith)

/-- The y-component of `Vec3::cap`, as `cap_x_eq`. -/
theorem cap_y_eq (v c : Vec3) :
    (v.cap c).y = if c.y = 0 then 0 else if c.y < 0 then Max.max v.y c.y else Min.min v.y c.y := by
  obtain ⟨vx, vy, vz⟩ := v
  obtain ⟨cx, cy, cz⟩ := c
  simp only [Vec3.cap]
  split_ifs <;> simp_all [max_def, min_def] <;> try split_ifs <;>
    first
      | rfl
      | linarith
      | (exfalso; rcases ‹vy < cy ∨ 0 < cy ∧ cy < vy› with h | ⟨h1, h2⟩ <;> linarith)
      | (exfalso
         have := ‹0 < cy → vy ≤ cy› (lt_of_le_of_ne ‹0 ≤ cy› (Ne.symm ‹¬cy = 0›))
         linarith)

/-- The z-component of `Vec3::cap`, as `cap_x_eq`. -/
theorem cap_z_eq (v c : Vec3) :
    (v.cap c).z = if c.z = 0 then 0 else if c.z < 0 then Max.max v.z c.z else Min.min v.z c.z := by
  obtain ⟨vx, vy, vz⟩ := v
  obtain ⟨cx, cy, cz⟩ := c
  simp only [Vec3.cap]
  split_ifs <;> simp_all [max_def, min_def] <;> try split_ifs <;>
    first
      | rfl
      | linarith
      | (exfalso; rcases ‹vz < cz ∨ 0 < cz ∧ cz < vz› with h | ⟨h1, h2⟩ <;> linarith)
      | (exfalso
         have := ‹0 < cz → vz ≤ cz› (lt_of_le_of_ne ‹0 ≤ cz› (Ne.symm ‹¬cz = 0›))
         linarith)

/-- **C10**: the cap operation is idempotent: for every vector `v` and cap
vector `c`, `v.cap(c).cap(c) == v.cap(c)`. -/
theorem cap_idempotent (v c : Vec3) : (v.cap c).cap c = v.cap c := by
  apply Vec3.eq_of_components
  · rw [cap_x_eq, cap_x_eq]
    split_ifs with h1 h2
    · rfl
    · rw [max_assoc, max_self]
    · rw [min_assoc, min_self]
  · rw [cap_y_eq, cap_y_eq]
    split_ifs with h1 h2
    · rfl
    · rw [max_assoc, max_self]
    · rw [min_assoc, min_self]
  · rw [cap_z_eq, cap_z_eq]
    split_ifs with h1 h2
    · rfl
    · rw [max_assoc, max_self]
    · rw [min_assoc, min_self]

/-- **C5**: `Vec3::cap` acts independently per axis — a zero cap
component forces that axis to zero, a negative cap component bounds the
axis from below, a positive one bounds it from above — and the movement
subsystem caps the raw movement impulse by
`displacement * mass / dt * force_scale + friction`, where `displacement`
is the goal velocity minus the relative velocity capped at the goal
velocity, and the capped impulse (minus friction and slide) is what is
written to the force accumulator. -/
theorem cap_and_movement_cap_spec :
    (∀ v c : Vec3,
      (v.cap c).x = (if c.x = 0 then 0 else if c.x < 0 then Max.max v.x c.x else Min.min v.x c.x) ∧
      (v.cap c).y = (if c.y = 0 then 0 else if c.y < 0 then Max.max v.y c.y else Min.min v.y c.y) ∧
      (v.cap c).z = (if c.z = 0 then 0 else if c.z < 0 then Max.max v.z c.z else Min.min v.z c.z)) ∧
    (∀ (rsqrt : ℚ → ℚ) (inp : MoveIn) (prev : MovementForce),
      let mc := (movement_force rsqrt inp prev).2
      mc.movement_force = mc.raw_movement_force.cap mc.max_movement_force ∧
      mc.max_movement_force =
        mc.displacement * inp.mass / inp.dt * mc.force_scale + mc.friction_force ∧
      mc.displacement = mc.goal_vel - mc.relative_velocity.cap mc.goal_vel ∧
      (movement_force rsqrt inp prev).1.linear =
        Vec3.ZERO + (mc.movement_force - mc.friction_force - mc.slip_force.getD Vec3.ZERO)) :=
  ⟨fun v c => ⟨cap_x_eq v c, cap_y_eq v c, cap_z_eq v c⟩,
   fun _ _ _ => ⟨rfl, rfl, rfl, rfl⟩⟩

/-- **C1**: the claim says `Jump::tick_timers` decrements each of
`cooldown_timer`, `jump_timer`, `buffer_timer` and `coyote_timer` by `dt`
clamped at zero and modifies no other field. On the concrete state
`c1jump` (all four timers and `coyote_duration` equal to `1`) with
`dt = 1/2`, the source instead leaves `coyote_timer` untouched and
decrements the configured `coyote_duration` — the fourth `tick` call in
the source reads `&mut self.coyote_duration`. The three other timers are
decremented as claimed. -/
theorem tick_timers_coyote_aliasing :
    (c1jump.tick_timers (1 / 2)).coyote_timer = 1 ∧
    (c1jump.tick_timers (1 / 2)).coyote_duration = 1 / 2 ∧
    (c1jump.tick_timers (1 / 2)).cooldown_timer = 1 / 2 ∧
    (c1jump.tick_timers (1 / 2)).jump_timer = 1 / 2 ∧
    (c1jump.tick_timers (1 / 2)).buffer_timer = 1 / 2 := by
  norm_num [Jump.tick_timers, Jump.tickOne, c1jump]

/-- **C3**: `Jump::can_jump(grounded)` returns `false` when
`remaining_jumps == jumps` and neither `grounded` nor a positive coyote
timer holds, and otherwise returns `true` iff `cooldown_timer <= 0` and
`remaining_jumps > 0`; and in the concrete double-jump scenario
(`jumps = 2`, starting grounded) the first press fires
(`remaining_jumps` becomes 1), the second mid-air press fires
(`remaining_jumps` becomes 0), and a third mid-air press fails
(`can_jump` is `false` and nothing fires). -/
theorem can_jump_spec :
    (∀ (j : Jump) (g : Bool),
      j.can_jump g = true ↔
        ((j.remaining_jumps = j.jumps → (g = true ∨ 0 < j.coyote_timer)) ∧
          j.cooldown_timer ≤ 0 ∧ 0 < j.remaining_jumps)) ∧
    (let s1 := jstep jump2 (tickIn true true)
     let s2 := jstep s1 (tickIn false false)
     let s3 := jstep s2 (tickIn false true)
     let s4 := jstep s3 (tickIn false false)
     firesJump jump2 (tickIn true true) = true ∧ s1.remaining_jumps = 1 ∧
     firesJump s2 (tickIn false true) = true ∧ s3.remaining_jumps = 0 ∧
     s4.can_jump false = false ∧ firesJump s4 (tickIn false true) = false) := by
  constructor
  · intro j g
    simp only [Jump.can_jump]
    by_cases hfj : j.remaining_jumps = j.jumps <;>
      by_cases hg : g = true <;>
        by_cases hc : 0 < j.coyote_timer <;>
          simp_all [Bool.and_eq_true, decide_eq_true_eq]
  · norm_num [jstep, jump_force, firesJump, jumpArmState, jumpPreState, jumpInputted,
      jumpRelVelocity, Jump.tick_timers, Jump.tickOne, Jump.can_jump, Jump.reset_jump,
      Jump.jumping, jump2, tickIn, groundedCast, airCast, restContact, GroundCast.grounded]

/-- Fields of `jumpPreState` that the grounded-refresh steps never touch,
and the two timers they tick. -/
theorem pre_config (j : Jump) (inp : JumpTickIn) :
    (jumpPreState j inp).jumps = j.jumps ∧
    (jumpPreState j inp).cooldown_duration = j.cooldown_duration ∧
    (jumpPreState j inp).jump_duration = j.jump_duration ∧
    (jumpPreState j inp).initial_force = j.initial_force ∧
    (jumpPreState j inp).buffer_duration = j.buffer_duration ∧
    (jumpPreState j inp).pressed_last_frame = j.pressed_last_frame ∧
    (jumpPreState j inp).cooldown_timer = Jump.tickOne inp.dt j.cooldown_timer ∧
    (jumpPreState j inp).buffer_timer = Jump.tickOne inp.dt j.buffer_timer := by
  unfold jumpPreState Jump.tick_timers Jump.reset_jump
  by_cases hg : inp.cast.grounded = true <;>
    by_cases hc : Jump.tickOne inp.dt j.cooldown_timer ≤ 0 <;>
      simp [hg, hc]

/-- `remaining_jumps` after the grounded-refresh steps: reset to `jumps`
exactly when the ticked cooldown is non-positive and the cast is
grounded. -/
theorem pre_remaining (j : Jump) (inp : JumpTickIn) :
    (jumpPreState j inp).remaining_jumps =
      if Jump.tickOne inp.dt j.cooldown_timer ≤ 0 ∧ inp.cast.grounded = true then j.jumps
      else j.remaining_jumps := by
  unfold jumpPreState Jump.tick_timers Jump.reset_jump
  by_cases hg : inp.cast.grounded = true <;>
    by_cases hc : Jump.tickOne inp.dt j.cooldown_timer ≤ 0 <;>
      simp [hg, hc]

/-- The buffer-arming step as a conditional record update. -/
theorem arm_eq (j : Jump) (inp : JumpTickIn) :
    jumpArmState j inp =
      if jumpInputted (jumpPreState j inp) inp = true ∧ inp.cast.grounded = false then
        { jumpPreState j inp with buffer_timer := (jumpPreState j inp).buffer_duration }
      else jumpPreState j inp := by
  unfold jumpArmState
  rfl

/-- The input edge does not depend on the grounded-refresh steps. -/
theorem jumpInputted_pre (j : Jump) (inp : JumpTickIn) :
    jumpInputted (jumpPreState j inp) inp = jumpInputted j inp := by
  unfold jumpInputted
  rw [(pre_config j inp).2.2.2.2.2.1]

/-- Fields of `jumpArmState` other than `buffer_timer` agree with
`jumpPreState`. -/
theorem arm_config (j : Jump) (inp : JumpTickIn) :
    (jumpArmState j inp).jumps = j.jumps ∧
    (jumpArmState j inp).remaining_jumps = (jumpPreState j inp).remaining_jumps ∧
    (jumpArmState j inp).cooldown_timer = Jump.tickOne inp.dt j.cooldown_timer ∧
    (jumpArmState j inp).cooldown_duration = j.cooldown_duration ∧
    (jumpArmState j inp).jump_duration = j.jump_duration ∧
    (jumpArmState j inp).initial_force = j.initial_force ∧
    (jumpArmState j inp).buffer_duration = j.buffer_duration := by
  obtain ⟨h1, h2, h3, h4, h5, h6, h7, h8⟩ := pre_config j inp
  rw [arm_eq]
  split_ifs <;> simp_all

/-- `buffer_timer` after the arming step. -/
theorem arm_buffer (j : Jump) (inp : JumpTickIn) :
    (jumpArmState j inp).buffer_timer =
      if jumpInputted j inp = true ∧ inp.cast.grounded = false then j.buffer_duration
      else Jump.tickOne inp.dt j.buffer_timer := by
  obtain ⟨h1, h2, h3, h4, h5, h6, h7, h8⟩ := pre_config j inp
  rw [arm_eq, jumpInputted_pre]
  split_ifs <;> simp_all

/-- The instrumentation flag equals the fire condition. -/
theorem jump_force_fired_eq (j : Jump) (a b c : Vec3) (d : ℚ) (inp : JumpTickIn) :
    (jump_force j a b c d inp).fired = firesJump j inp := by
  simp only [jump_force, firesJump]
  split_ifs <;> simp_all

/-- Jump-state fields after a tick in which the initial-jump branch
fired. -/
theorem jstep_fire (j : Jump) (inp : JumpTickIn) (h : firesJump j inp = true) :
    (jstep j inp).remaining_jumps = (jumpArmState j inp).remaining_jumps - 1 ∧
    (jstep j inp).cooldown_timer = (jumpArmState j inp).cooldown_duration ∧
    (jstep j inp).jump_timer = (jumpArmState j inp).jump_duration ∧
    (jstep j inp).pressed_last_frame = inp.input.jumping ∧
    (jstep j inp).buffer_timer = (jumpArmState j inp).buffer_timer ∧
    (jstep j inp).jumps = (jumpArmState j inp).jumps ∧
    (jstep j inp).buffer_duration = (jumpArmState j inp).buffer_duration := by
  unfold firesJump at h
  simp only [jstep, jump_force]
  simp only at h
  rw [if_pos]
  · simp
  · exact h

/-- Jump-state fields after a tick in which the initial-jump branch did
not fire: only `pressed_last_frame` changes beyond the refresh/arm
steps. -/
theorem jstep_nofire (j : Jump) (inp : JumpTickIn) (h : firesJump j inp = false) :
    (jstep j inp).remaining_jumps = (jumpArmState j inp).remaining_jumps ∧
    (jstep j inp).cooldown_timer = (jumpArmState j inp).cooldown_timer ∧
    (jstep j inp).pressed_last_frame = inp.input.jumping ∧
    (jstep j inp).buffer_timer = (jumpArmState j inp).buffer_timer ∧
    (jstep j inp).jumps = (jumpArmState j inp).jumps ∧
    (jstep j inp).buffer_duration = (jumpArmState j inp).buffer_duration := by
  unfold firesJump at h
  simp only [jstep, jump_force]
  simp only at h
  rw [if_neg]
  · split_ifs <;> simp
  · simp [h]

/-- `can_jump` requires a positive remaining-jump count and a
non-positive cooldown. -/
theorem can_jump_pos {j : Jump} {g : Bool} (h : j.can_jump g = true) :
    0 < j.remaining_jumps ∧ j.cooldown_timer ≤ 0 := by
  simp only [Jump.can_jump] at h
  split_ifs at h <;> simp_all [Bool.and_eq_true, decide_eq_true_eq]

/-- `can_jump` holds when grounded with non-positive cooldown and jumps
remaining. -/
theorem can_jump_grounded_intro {j : Jump} (hc : j.cooldown_timer ≤ 0)
    (hr : 0 < j.remaining_jumps) : j.can_jump true = true := by
  simp [Jump.can_jump, hc, hr]

/-- Ticking a non-positive timer leaves it unchanged. -/
theorem tickOne_of_nonpos {dt t : ℚ} (h : t ≤ 0) : Jump.tickOne dt t = t := by
  rw [Jump.tickOne, if_neg (not_lt.mpr h)]

/-- Ticking a positive timer that stays non-negative subtracts `dt`. -/
theorem tickOne_of_pos {dt t : ℚ} (h : 0 < t) (h2 : 0 ≤ t - dt) :
    Jump.tickOne dt t = t - dt := by
  rw [Jump.tickOne, if_pos h, max_eq_left h2]

/-- One tick of `jump_force` preserves `remaining_jumps ≤ jumps`. -/
theorem jstep_preserves (j : Jump) (inp : JumpTickIn) (h : j.remaining_jumps ≤ j.jumps) :
    (jstep j inp).remaining_jumps ≤ (jstep j inp).jumps := by
  have hjumps : (jumpArmState j inp).jumps = j.jumps := (arm_config j inp).1
  have harm : (jumpArmState j inp).remaining_jumps ≤ j.jumps := by
    rw [(arm_config j inp).2.1, pre_remaining]
    split_ifs <;> omega
  by_cases hf : firesJump j inp = true
  · obtain ⟨h1, _, _, _, _, h6, _⟩ := jstep_fire j inp hf
    rw [h1, h6, hjumps]
    omega
  · obtain ⟨h1, _, _, _, h5, _⟩ := jstep_nofire j inp (by simpa using hf)
    rw [h1, h5, hjumps]
    omega

/-- The jump-count bound is preserved by every run of the jump system. -/
theorem runJump_inv (ins : List JumpTickIn) : ∀ j : Jump, j.remaining_jumps ≤ j.jumps →
    (runJump j ins).remaining_jumps ≤ (runJump j ins).jumps := by
  induction ins with
  | nil => intro j h; exact h
  | cons x rest ih =>
    intro j h
    simp only [runJump]
    exact ih _ (jstep_preserves j x h)

/-- **C2**: starting from `remaining_jumps ≤ jumps`, the invariant
`0 ≤ remaining_jumps ≤ jumps` holds after every tick sequence of the jump
subsystem (the lower bound is inherent to `ℕ`, matching the `u32` field
and `saturating_sub`); `remaining_jumps` decreases over a tick only when
that tick fired a jump (`can_jump` together with the input edge or a
positive buffer timer — the `fired` flag); and it is set back to `jumps`
only on a tick whose cast is grounded with the ticked `cooldown_timer`
non-positive. -/
theorem jump_count_invariant (j : Jump) (h : j.remaining_jumps ≤ j.jumps) :
    (∀ ins : List JumpTickIn,
      (runJump j ins).remaining_jumps ≤ (runJump j ins).jumps) ∧
    (∀ inp : JumpTickIn, (jstep j inp).remaining_jumps < j.remaining_jumps →
      (jump_force j 0 0 0 0 inp).fired = true) ∧
    (∀ inp : JumpTickIn, j.remaining_jumps ≠ j.jumps →
      (jstep j inp).remaining_jumps = j.jumps →
      inp.cast.grounded = true ∧ (j.tick_timers inp.dt).cooldown_timer ≤ 0) := by
  refine ⟨fun ins => runJump_inv ins j h, ?_, ?_⟩
  · intro inp hlt
    rw [jump_force_fired_eq]
    by_contra hf
    have hf' : firesJump j inp = false := by simpa using hf
    obtain ⟨h1, _, _, _, _, _⟩ := jstep_nofire j inp hf'
    rw [h1, (arm_config j inp).2.1, pre_remaining] at hlt
    split_ifs at hlt <;> omega
  · intro inp hne hset
    have hcd : (j.tick_timers inp.dt).cooldown_timer = Jump.tickOne inp.dt j.cooldown_timer := rfl
    by_cases hguard : Jump.tickOne inp.dt j.cooldown_timer ≤ 0 ∧ inp.cast.grounded = true
    · exact ⟨hguard.2, by rw [hcd]; exact hguard.1⟩
    · exfalso
      by_cases hf : firesJump j inp = true
      · obtain ⟨h1, _, _, _, _, _, _⟩ := jstep_fire j inp hf
        rw [h1, (arm_config j inp).2.1, pre_remaining, if_neg hguard] at hset
        omega
      · obtain ⟨h1, _, _, _, _, _⟩ := jstep_nofire j inp (by simpa using hf)
        rw [h1, (arm_config j inp).2.1, pre_remaining, if_neg hguard] at hset
        omega

/-- Witness for C2 at the concrete state `jump2` and a one-tick run. -/
theorem jump_count_invariant_witness :
    jump2.remaining_jumps ≤ jump2.jumps ∧
    (runJump jump2 [tickIn true true]).remaining_jumps ≤
      (runJump jump2 [tickIn true true]).jumps :=
  ⟨by decide, (jump_count_invariant jump2 (by decide)).1 [tickIn true true]⟩

/-- **C4**: on any tick where `can_jump` holds and the input edge fired or
the buffer timer was positive (i.e. `firesJump`), the jump subsystem
writes as the jump impulse the cancellation of the (relative-to-ground)
velocity component along `up_vector` — scaled by `mass / dt` — plus
`initial_force * up_vector`; zeroes the float and gravity force
accumulators for the tick; decrements `remaining_jumps` by one; and sets
`cooldown_timer = cooldown_duration` and `jump_timer = jump_duration`. -/
theorem jump_fire_effects (j : Jump) (a fF gF : Vec3) (st : ℚ) (inp : JumpTickIn)
    (h : firesJump j inp = true) :
    (jump_force j a fF gF st inp).jumpForce =
      Vec3.ZERO +
        (((-1 : ℚ) * inp.up_vector * ((jumpRelVelocity inp).dot inp.up_vector)) * inp.mass / inp.dt +
          j.initial_force * inp.up_vector) ∧
    (jump_force j a fF gF st inp).floatForce = Vec3.ZERO ∧
    (jump_force j a fF gF st inp).gravityForce = Vec3.ZERO ∧
    (jump_force j a fF gF st inp).jump.remaining_jumps + 1 =
      (jumpArmState j inp).remaining_jumps ∧
    (jump_force j a fF gF st inp).jump.cooldown_timer = j.cooldown_duration ∧
    (jump_force j a fF gF st inp).jump.jump_timer = j.jump_duration ∧
    (jump_force j a fF gF st inp).fired = true := by
  have hpos : 0 < (jumpArmState j inp).remaining_jumps := by
    have hcj : (jumpArmState j inp).can_jump inp.cast.grounded = true := by
      unfold firesJump at h
      simp only at h
      exact ((Bool.and_eq_true _ _).mp h).1
    exact (can_jump_pos hcj).1
  have hinit : (jumpArmState j inp).initial_force = j.initial_force :=
    (arm_config j inp).2.2.2.2.2.1
  have hcd : (jumpArmState j inp).cooldown_duration = j.cooldown_duration :=
    (arm_config j inp).2.2.2.1
  have hjd : (jumpArmState j inp).jump_duration = j.jump_duration :=
    (arm_config j inp).2.2.2.2.1
  unfold firesJump at h
  simp only [jump_force]
  simp only at h
  rw [if_pos h]
  refine ⟨by rw [hinit], rfl, rfl, by simp; omega, by simp [hcd], by simp [hjd], rfl⟩

/-- Witness for C4 at the concrete grounded press of `jump2`. -/
theorem jump_fire_effects_witness :
    firesJump jump2 (tickIn true true) = true ∧
    (jump_force jump2 0 0 0 0 (tickIn true true)).floatForce = Vec3.ZERO ∧
    (jump_force jump2 0 0 0 0 (tickIn true true)).jump.remaining_jumps + 1 =
      (jumpArmState jump2 (tickIn true true)).remaining_jumps := by
  have hf : firesJump jump2 (tickIn true true) = true := by
    norm_num [firesJump, jumpArmState, jumpPreState, jumpInputted, Jump.tick_timers,
      Jump.tickOne, Jump.can_jump, Jump.reset_jump, jump2, tickIn, groundedCast,
      restContact, GroundCast.grounded]
  exact ⟨hf, (jump_fire_effects jump2 0 0 0 0 (tickIn true true) hf).2.1,
    (jump_fire_effects jump2 0 0 0 0 (tickIn true true) hf).2.2.2.1⟩

/-! Componentwise evaluation lemmas for the `Vec3` operations. -/

theorem vadd_x (a b : Vec3) : (a + b).x = a.x + b.x := rfl
theorem vadd_y (a b : Vec3) : (a + b).y = a.y + b.y := rfl
theorem vadd_z (a b : Vec3) : (a + b).z = a.z + b.z := rfl
theorem vsub_x (a b : Vec3) : (a - b).x = a.x - b.x := rfl
theorem vsub_y (a b : Vec3) : (a - b).y = a.y - b.y := rfl
theorem vsub_z (a b : Vec3) : (a - b).z = a.z - b.z := rfl
theorem vmul_x (a b : Vec3) : (a * b).x = a.x * b.x := rfl
theorem vmul_y (a b : Vec3) : (a * b).y = a.y * b.y := rfl
theorem vmul_z (a b : Vec3) : (a * b).z = a.z * b.z := rfl
theorem vsmul_x (a : Vec3) (s : ℚ) : (a * s).x = a.x * s := rfl
theorem vsmul_y (a : Vec3) (s : ℚ) : (a * s).y = a.y * s := rfl
theorem vsmul_z (a : Vec3) (s : ℚ) : (a * s).z = a.z * s := rfl
theorem smulv_x (s : ℚ) (a : Vec3) : (s * a).x = s * a.x := rfl
theorem smulv_y (s : ℚ) (a : Vec3) : (s * a).y = s * a.y := rfl
theorem smulv_z (s : ℚ) (a : Vec3) : (s * a).z = s * a.z := rfl
theorem vdiv_x (a : Vec3) (s : ℚ) : (a / s).x = a.x / s := rfl
theorem vdiv_y (a : Vec3) (s : ℚ) : (a / s).y = a.y / s := rfl
theorem vdiv_z (a : Vec3) (s : ℚ) : (a / s).z = a.z / s := rfl
theorem vzero_x : (0 : Vec3).x = 0 := rfl
theorem vzero_y : (0 : Vec3).y = 0 := rfl
theorem vzero_z : (0 : Vec3).z = 0 := rfl
theorem vmk3_x (a b c : ℚ) : (Vec3.mk3 a b c).x = a := rfl
theorem vmk3_y (a b c : ℚ) : (Vec3.mk3 a b c).y = b := rfl
theorem vmk3_z (a b c : ℚ) : (Vec3.mk3 a b c).z = c := rfl

/-- **C6**: the friction impulse equals
`max(own_friction, ground_friction) * relative_velocity * mass / dt` when
the viable ground is a current stable contact, with a missing friction
component defaulting to the neutral coefficient (`Friction.default`), and
is zero whenever there is no such contact (grace-retained or absent
ground). -/
theorem friction_force_spec (rsqrt : ℚ → ℚ) (inp : MoveIn) (prev : MovementForce) :
    (∀ g : GroundContact, inp.cast.viable = .Ground g →
      (movement_force rsqrt inp prev).2.friction_force =
        Max.max ((inp.frictions inp.entity).getD Friction.default).coefficient
            ((inp.frictions g.entity).getD Friction.default).coefficient *
          (movement_force rsqrt inp prev).2.relative_velocity * inp.mass / inp.dt) ∧
    (∀ g : GroundContact, inp.cast.viable = .Grace g →
      (movement_force rsqrt inp prev).2.friction_force = Vec3.ZERO) ∧
    (inp.cast.viable = .NoGround →
      (movement_force rsqrt inp prev).2.friction_force = Vec3.ZERO) := by
  refine ⟨?_, ?_, ?_⟩
  · intro g hg
    simp only [movement_force, hg]
  · intro g hg
    simp only [movement_force, hg]
  · intro hg
    simp only [movement_force, hg]

/-- Witness for C6: on the concrete resting-ground input the friction
impulse evaluates to `max(1/3, 1/2) * (2,0,0) * 1 / 1 = (1,0,0)`. -/
theorem friction_force_spec_witness :
    moveInGround.cast.viable = ViableGround.Ground restContact ∧
    (movement_force wrsqrt moveInGround { linear := 0, angular := 0 }).2.friction_force =
      Max.max ((moveInGround.frictions moveInGround.entity).getD Friction.default).coefficient
          ((moveInGround.frictions restContact.entity).getD Friction.default).coefficient *
        (movement_force wrsqrt moveInGround { linear := 0, angular := 0 }).2.relative_velocity *
        moveInGround.mass / moveInGround.dt ∧
    (movement_force wrsqrt moveInGround { linear := 0, angular := 0 }).2.friction_force =
      Vec3.mk3 1 0 0 :=
  ⟨rfl,
   (friction_force_spec wrsqrt moveInGround { linear := 0, angular := 0 }).1 restContact rfl,
   by
     apply Vec3.eq_of_components <;>
       norm_num [movement_force, moveInGround, groundedCast, restContact, Friction.default,
         ViableGround.last, Movement.force_scale_fn, Vec3.ONE, max_def,
         Velocity.default, vadd_x, vadd_y, vadd_z, vsub_x, vsub_y, vsub_z, vmul_x, vmul_y,
         vmul_z, vsmul_x, vsmul_y, vsmul_z, smulv_x, smulv_y, smulv_z, vdiv_x, vdiv_y,
         vdiv_z, vzero_x, vzero_y, vzero_z, vmk3_x, vmk3_y, vmk3_z]⟩

/-- A nonzero vector has positive squared length. -/
theorem length_squared_pos (v : Vec3) (h : v ≠ 0) : 0 < v.length_squared := by
  obtain ⟨x, y, z⟩ := v
  have hx : 0 ≤ x * x := mul_self_nonneg x
  have hy : 0 ≤ y * y := mul_self_nonneg y
  have hz : 0 ≤ z * z := mul_self_nonneg z
  rcases eq_or_ne x 0 with hx0 | hx0
  · rcases eq_or_ne y 0 with hy0 | hy0
    · rcases eq_or_ne z 0 with hz0 | hz0
      · exact absurd (by simp [hx0, hy0, hz0]; rfl) h
      · have hp : 0 < z * z := mul_self_pos.mpr hz0
        simp only [Vec3.length_squared]; linarith
    · have hp : 0 < y * y := mul_self_pos.mpr hy0
      simp only [Vec3.length_squared]; linarith
  · have hp : 0 < x * x := mul_self_pos.mpr hx0
    simp only [Vec3.length_squared]; linarith

/-- **C8**: `Movement::force_scale` returns the explicit vector for the
explicit variant, the identity mask `(1,1,1)` for the no-scaling variant,
and for the `Up` variant the mask `|p₁| + |p₂|` built from the
orthonormal pair of the normalized up vector; a zero up vector falls back
to the identity mask instead of failing, so the function is total (any
square-root stand-in satisfying `SqrtSpec` gives the same branching). -/
theorem force_scale_total_spec (rsqrt : ℚ → ℚ) (hs : SqrtSpec rsqrt) (m : Movement)
    (g : Gravity) :
    (∀ v, ({ m with force_scale := .Vec v }).force_scale_fn rsqrt g = v) ∧
    ({ m with force_scale := .NoScale }).force_scale_fn rsqrt g = Vec3.ONE ∧
    (g.up_vector = 0 → ({ m with force_scale := .Up }).force_scale_fn rsqrt g = Vec3.ONE) ∧
    (g.up_vector ≠ 0 →
      ({ m with force_scale := .Up }).force_scale_fn rsqrt g =
        (g.up_vector.normalize rsqrt).any_orthonormal_pair.1.abs +
          (g.up_vector.normalize rsqrt).any_orthonormal_pair.2.abs) := by
  refine ⟨fun v => rfl, rfl, ?_, ?_⟩
  · intro h
    have h0 : g.up_vector.length_squared = 0 := by
      rw [h]
      norm_num [Vec3.length_squared, vzero_x, vzero_y, vzero_z]
    simp [Movement.force_scale_fn, Vec3.length, h0, hs.zero]
  · intro h
    have h0 : 0 < g.up_vector.length_squared := length_squared_pos _ h
    have h1 : 0 < g.up_vector.length rsqrt := hs.pos _ h0
    simp [Movement.force_scale_fn, h1]

/-- Witness for C8: the concrete square root, a zero up vector (identity
fallback) and the `+Y` up vector (orthonormal-pair mask). -/
theorem force_scale_total_spec_witness :
    SqrtSpec wrsqrt ∧
    ((0 : Vec3) = 0 ∧
      ({ moveInGround.movement with force_scale := .Up }).force_scale_fn wrsqrt
          { up_vector := 0 } = Vec3.ONE) ∧
    (Vec3.mk3 0 1 0 ≠ 0 ∧
      ({ moveInGround.movement with force_scale := .Up }).force_scale_fn wrsqrt
          { up_vector := Vec3.mk3 0 1 0 } =
        ((Vec3.mk3 0 1 0).normalize wrsqrt).any_orthonormal_pair.1.abs +
          ((Vec3.mk3 0 1 0).normalize wrsqrt).any_orthonormal_pair.2.abs) :=
  ⟨sqrtSpec_wrsqrt,
   ⟨rfl,
    (force_scale_total_spec wrsqrt sqrtSpec_wrsqrt moveInGround.movement
        { up_vector := 0 }).2.2.1 rfl⟩,
   ⟨by decide,
    (force_scale_total_spec wrsqrt sqrtSpec_wrsqrt moveInGround.movement
        { up_vector := Vec3.mk3 0 1 0 }).2.2.2 (by decide)⟩⟩

/-- **C9 (counterexample)**: the claim that every field of the
`MovementForce` accumulator is overwritten each tick independently of its
previous value is false: on the concrete input `moveInGround`, running
`movement_force` from two accumulator states that differ in `angular`
yields different accumulator results — `angular` is never written by the
movement system. -/
theorem movement_force_not_prev_independent :
    (movement_force wrsqrt moveInGround { linear := 0, angular := Vec3.mk3 1 0 0 }).1 ≠
      (movement_force wrsqrt moveInGround { linear := 0, angular := 0 }).1 := by
  intro h
  have h2 : Vec3.mk3 1 0 0 = (0 : Vec3) := congrArg MovementForce.angular h
  exact absurd h2 (by decide)

/-- **C9 (amended)**: the `linear` field of each accumulator written by
the movement and jump subsystems is fully overwritten at the start of the
tick — `MovementForce.linear` and the whole `jump_force` output are
independent of the previous accumulator values — while
`MovementForce.angular` is never written by `movement_force` and retains
its previous value. -/
theorem force_accumulators_overwrite :
    (∀ (rsqrt : ℚ → ℚ) (inp : MoveIn) (prev prev' : MovementForce),
      (movement_force rsqrt inp prev).1.linear =
        (movement_force rsqrt inp prev').1.linear) ∧
    (∀ (rsqrt : ℚ → ℚ) (inp : MoveIn) (prev : MovementForce),
      (movement_force rsqrt inp prev).1.angular = prev.angular) ∧
    (∀ (j : Jump) (a b fF gF : Vec3) (st : ℚ) (inp : JumpTickIn),
      jump_force j a fF gF st inp = jump_force j b fF gF st inp) :=
  ⟨fun _ _ _ _ => rfl, fun _ _ _ => rfl, fun _ _ _ _ _ _ _ => rfl⟩

/-- The fired flags of a concatenated run split at the intermediate
state. -/
theorem firedSeq_append (l1 l2 : List JumpTickIn) : ∀ j : Jump,
    firedSeq j (l1 ++ l2) = firedSeq j l1 ++ firedSeq (runJump j l1) l2 := by
  induction l1 with
  | nil => intro j; simp [firedSeq, runJump]
  | cons x rest ih => intro j; simp [firedSeq, runJump, ih]

/-- Coasting airborne with no input edge and no jump available: nothing
fires, the armed buffer drains exactly by the elapsed time, and cooldown,
jump count and buffer duration are untouched. -/
theorem coast (mid : List JumpTickIn) : ∀ s : Jump,
    s.cooldown_timer ≤ 0 →
    (∀ x ∈ mid, x.cast.grounded = false) →
    (∀ x ∈ mid, 0 ≤ x.dt) →
    (∀ k (hk : k < mid.length), jumpInputted (runJump s (mid.take k)) (mid.get ⟨k, hk⟩) = false) →
    (∀ k (hk : k < mid.length),
      (jumpArmState (runJump s (mid.take k)) (mid.get ⟨k, hk⟩)).can_jump
        (mid.get ⟨k, hk⟩).cast.grounded = false) →
    (mid.map JumpTickIn.dt).sum < s.buffer_timer →
    firedSeq s mid = mid.map (fun _ => false) ∧
    (runJump s mid).buffer_timer = s.buffer_timer - (mid.map JumpTickIn.dt).sum ∧
    (runJump s mid).cooldown_timer ≤ 0 ∧
    (runJump s mid).jumps = s.jumps ∧
    (runJump s mid).buffer_duration = s.buffer_duration := by
  induction mid with
  | nil =>
    intro s h1 h2 h3 h4 h5 h6
    refine ⟨rfl, ?_, h1, rfl, rfl⟩
    simp [runJump]
  | cons x rest ih =>
    intro s hcool hair hdt hnoedge hnocj hsum
    have hg : x.cast.grounded = false := hair x (List.mem_cons_self _ _)
    have hdtx : 0 ≤ x.dt := hdt x (List.mem_cons_self _ _)
    have hrestsum : 0 ≤ (rest.map JumpTickIn.dt).sum :=
      List.sum_nonneg (fun q hq => by
        obtain ⟨y, hy, rfl⟩ := List.mem_map.mp hq
        exact hdt y (List.mem_cons_of_mem _ hy))
    have hsum' : x.dt + (rest.map JumpTickIn.dt).sum < s.buffer_timer := by
      simpa using hsum
    have hbufpos : 0 < s.buffer_timer := by linarith
    have hnoedge0 : jumpInputted s x = false := by
      have := hnoedge 0 (by simp)
      simpa [runJump] using this
    have hnocj0 : (jumpArmState s x).can_jump x.cast.grounded = false := by
      have := hnocj 0 (by simp)
      simpa [runJump] using this
    have hfire : firesJump s x = false := by
      unfold firesJump
      simp only
      rw [hnocj0, Bool.false_and]
    obtain ⟨hs1, hs2, hs3, hs4, hs5, hs6⟩ := jstep_nofire s x hfire
    have harmbuf : (jumpArmState s x).buffer_timer = s.buffer_timer - x.dt := by
      rw [arm_buffer, if_neg, tickOne_of_pos hbufpos (by linarith)]
      intro hcontra
      rw [hnoedge0] at hcontra
      exact absurd hcontra.1 (by simp)
    have hstep_buf : (jstep s x).buffer_timer = s.buffer_timer - x.dt := by
      rw [hs4, harmbuf]
    have hstep_cool : (jstep s x).cooldown_timer ≤ 0 := by
      rw [hs2, (arm_config s x).2.2.1, tickOne_of_nonpos hcool]
      exact hcool
    have hstep_jumps : (jstep s x).jumps = s.jumps := by
      rw [hs5, (arm_config s x).1]
    have hstep_bufdur : (jstep s x).buffer_duration = s.buffer_duration := by
      rw [hs6, (arm_config s x).2.2.2.2.2.2]
    have ihres := ih (jstep s x) hstep_cool
      (fun y hy => hair y (List.mem_cons_of_mem _ hy))
      (fun y hy => hdt y (List.mem_cons_of_mem _ hy))
      (fun k hk => by
        have := hnoedge (k + 1) (by simpa using Nat.succ_lt_succ hk)
        simpa [runJump, List.take_succ_cons] using this)
      (fun k hk => by
        have := hnocj (k + 1) (by simpa using Nat.succ_lt_succ hk)
        simpa [runJump, List.take_succ_cons] using this)
      (by rw [hstep_buf]; linarith)
    obtain ⟨ih1, ih2, ih3, ih4, ih5⟩ := ihres
    refine ⟨?_, ?_, ?_, ?_, ?_⟩
    · simp only [firedSeq, jump_force_fired_eq, hfire, List.map]
      rw [ih1]
    · show (runJump (jstep s x) rest).buffer_timer = _
      rw [ih2, hstep_buf]
      simp [List.map, List.sum_cons]
      ring
    · exact ih3
    · show (runJump (jstep s x) rest).jumps = _
      rw [ih4, hstep_jumps]
    · show (runJump (jstep s x) rest).buffer_duration = _
      rw [ih5, hstep_bufdur]

/-- **C7**: if a jump input edge (`input.jumping && !pressed_last_frame`)
fires while airborne, the buffer timer is armed to `buffer_duration`; and
in a run where no jump is available until landing (airborne with
`can_jump` false on the edge tick and on every coasting tick, no further
edge), the buffered jump fires exactly on the first grounded tick —
provided the elapsed time stays within `buffer_duration`, the cooldown is
spent and the configuration allows at least one jump — and on no earlier
tick. -/
theorem buffered_jump_fires_on_landing (j0 : Jump) (e land : JumpTickIn)
    (mid : List JumpTickIn)
    (he_air : e.cast.grounded = false)
    (he_press : e.input.jumping = true)
    (he_new : j0.pressed_last_frame = false)
    (he_nojump : (jumpArmState j0 e).can_jump e.cast.grounded = false)
    (hcool : j0.cooldown_timer ≤ 0)
    (hjumps : 0 < j0.jumps)
    (hmid_air : ∀ x ∈ mid, x.cast.grounded = false)
    (hmid_dt : ∀ x ∈ mid, 0 ≤ x.dt)
    (hmid_noedge : ∀ k (hk : k < mid.length),
      jumpInputted (runJump (jstep j0 e) (mid.take k)) (mid.get ⟨k, hk⟩) = false)
    (hmid_nojump : ∀ k (hk : k < mid.length),
      (jumpArmState (runJump (jstep j0 e) (mid.take k)) (mid.get ⟨k, hk⟩)).can_jump
        (mid.get ⟨k, hk⟩).cast.grounded = false)
    (hland : land.cast.grounded = true)
    (hland_dt : 0 ≤ land.dt)
    (hwindow : (mid.map JumpTickIn.dt).sum + land.dt < j0.buffer_duration) :
    (jstep j0 e).buffer_timer = j0.buffer_duration ∧
    firedSeq j0 (e :: (mid ++ [land])) =
      false :: (mid.map (fun _ => false) ++ [true]) := by
  have hedge : jumpInputted j0 e = true := by simp [jumpInputted, he_press, he_new]
  have hfire0 : firesJump j0 e = false := by
    unfold firesJump
    simp only
    rw [he_nojump, Bool.false_and]
  obtain ⟨hs1, hs2, hs3, hs4, hs5, hs6⟩ := jstep_nofire j0 e hfire0
  have hs1buf : (jstep j0 e).buffer_timer = j0.buffer_duration := by
    rw [hs4, arm_buffer, if_pos ⟨hedge, he_air⟩]
  have hs1cool : (jstep j0 e).cooldown_timer ≤ 0 := by
    rw [hs2, (arm_config j0 e).2.2.1, tickOne_of_nonpos hcool]
    exact hcool
  have hs1jumps : (jstep j0 e).jumps = j0.jumps := by rw [hs5, (arm_config j0 e).1]
  have hmidsum_nonneg : 0 ≤ (mid.map JumpTickIn.dt).sum :=
    List.sum_nonneg (fun q hq => by
      obtain ⟨y, hy, rfl⟩ := List.mem_map.mp hq
      exact hmid_dt y hy)
  have hmidsum_lt : (mid.map JumpTickIn.dt).sum < (jstep j0 e).buffer_timer := by
    rw [hs1buf]; linarith
  obtain ⟨hc1, hc2, hc3, hc4, hc5⟩ := coast mid (jstep j0 e) hs1cool hmid_air hmid_dt
    hmid_noedge hmid_nojump hmidsum_lt
  have hLbuf : (runJump (jstep j0 e) mid).buffer_timer =
      j0.buffer_duration - (mid.map JumpTickIn.dt).sum := by
    rw [hc2, hs1buf]
  have hLbufpos : 0 < (runJump (jstep j0 e) mid).buffer_timer := by
    rw [hLbuf]; linarith
  have hLpre_buf : (jumpPreState (runJump (jstep j0 e) mid) land).buffer_timer =
      (runJump (jstep j0 e) mid).buffer_timer - land.dt := by
    rw [(pre_config _ land).2.2.2.2.2.2.2, tickOne_of_pos hLbufpos (by rw [hLbuf]; linarith)]
  have hLpre_bufpos : 0 < (jumpPreState (runJump (jstep j0 e) mid) land).buffer_timer := by
    rw [hLpre_buf, hLbuf]; linarith
  have hLtick_cool : Jump.tickOne land.dt (runJump (jstep j0 e) mid).cooldown_timer ≤ 0 := by
    rw [tickOne_of_nonpos hc3]; exact hc3
  have hLpre_cool : (jumpPreState (runJump (jstep j0 e) mid) land).cooldown_timer ≤ 0 := by
    rw [(pre_config _ land).2.2.2.2.2.2.1]; exact hLtick_cool
  have hLpre_rem : (jumpPreState (runJump (jstep j0 e) mid) land).remaining_jumps =
      (runJump (jstep j0 e) mid).jumps := by
    rw [pre_remaining, if_pos ⟨hLtick_cool, hland⟩]
  have hLpre_rempos : 0 < (jumpPreState (runJump (jstep j0 e) mid) land).remaining_jumps := by
    rw [hLpre_rem, hc4, hs1jumps]; exact hjumps
  have harmL : jumpArmState (runJump (jstep j0 e) mid) land =
      jumpPreState (runJump (jstep j0 e) mid) land := by
    rw [arm_eq, if_neg]
    intro hcontra
    rw [hland] at hcontra
    exact absurd hcontra.2 (by simp)
  have hcj : (jumpArmState (runJump (jstep j0 e) mid) land).can_jump
      land.cast.grounded = true := by
    rw [harmL, hland]
    exact can_jump_grounded_intro hLpre_cool hLpre_rempos
  have hfireL : firesJump (runJump (jstep j0 e) mid) land = true := by
    unfold firesJump
    simp only
    rw [hcj, Bool.true_and]
    simp [hLpre_bufpos]
  refine ⟨hs1buf, ?_⟩
  simp only [firedSeq]
  rw [firedSeq_append]
  simp only [firedSeq]
  rw [jump_force_fired_eq, jump_force_fired_eq, hfire0, hfireL, hc1]

/-- Witness for C7: a concrete airborne press with a 3-second buffer, one
coasting tick and a landing tick; the fired flags are
`[false, false, true]`. -/
theorem buffered_jump_fires_on_landing_witness :
    jumpBuf.cooldown_timer ≤ 0 ∧ 0 < jumpBuf.jumps ∧
    (([tickIn false false] : List JumpTickIn).map JumpTickIn.dt).sum + (tickIn true false).dt <
      jumpBuf.buffer_duration ∧
    (jstep jumpBuf (tickIn false true)).buffer_timer = jumpBuf.buffer_duration ∧
    firedSeq jumpBuf (tickIn false true :: ([tickIn false false] ++ [tickIn true false])) =
      false :: (([tickIn false false] : List JumpTickIn).map (fun _ => false) ++ [true]) := by
  have hmain := buffered_jump_fires_on_landing jumpBuf (tickIn false true) (tickIn true false)
    [tickIn false false]
    (by decide) (by decide) (by decide) (by decide) (by decide) (by decide)
    (by decide) (by decide) (by decide) (by decide) (by decide) (by decide)
    (by norm_num [tickIn, jumpBuf])
  exact ⟨by decide, by decide, by norm_num [tickIn, jumpBuf], hmain.1, hmain.2⟩

/-- Witness for C3 at the concrete grounded double-jump state. -/
theorem can_jump_spec_witness :
    ((jump2.remaining_jumps = jump2.jumps → (true = true ∨ 0 < jump2.coyote_timer)) ∧
      jump2.cooldown_timer ≤ 0 ∧ 0 < jump2.remaining_jumps) ∧
    jump2.can_jump true = true := by
  have h : (jump2.remaining_jumps = jump2.jumps → (true = true ∨ 0 < jump2.coyote_timer)) ∧
      jump2.cooldown_timer ≤ 0 ∧ 0 < jump2.remaining_jumps :=
    ⟨fun _ => Or.inl rfl, by decide, by decide⟩
  exact ⟨h, (can_jump_spec.1 jump2 true).mpr h⟩
